import Mathlib

/-!
Shallow embedding of `src/sql-dump-splitter.py` (version 1.5).

Lines and Python strings are modelled as `List Char`.  `str.upper()` is
modelled char-wise on its ASCII fragment by `Char.toUpper`, and Python
whitespace (`str.strip`, regex `\s`) by `pySpace`, its ASCII part.  The
regular-expression searches in `extract_function_name` are all of the shape
`KEYWORD\s+([^STOP]+)` with `re.IGNORECASE`; `searchKw` implements
`re.search` for exactly that shape: scan left to right for the first
position where the whole pattern matches, with a greedy `\s+` and a maximal
capture group (backtracking cannot help here because every stop set contains
the whitespace characters).  `searchTable` is the same search for the
two-branch alternation `(CREATE TABLE|DROP TABLE)\s+([^\s;]+)`.

The helper functions `should_split` (source lines 26-31),
`extract_function_name` (lines 33-61) and `handle_line` (lines 63-66) are
syntactically intact Python and are embedded from the source directly.

The loop of `process_file` is another matter: as committed, source line 84
is indented with 15 spaces against the 16-space body of the `for` loop
(lines 80-98), which matches no enclosing indentation level, so the file
raises `IndentationError` at parse time.  The committed script therefore
computes nothing on any input, and lines 84-98 have no Python semantics;
in particular it is undetermined from the source alone which statements the
`any(...)` test on line 84 was meant to govern.  The loop definitions below
(`nameStage`, `cutStage`, `processKept`, `processLine`, `runLines`,
`process_file`) are therefore modelled from the spec: section 4.5 fixes the
block structure (the matcher guards only the name-extraction attempt; the
cut decision and the append run for every retained line; a cut emits before
the current line is appended; a non-empty accumulator is flushed at
end-of-stream), and each statement inside that structure uses the
expression written on the corresponding source line — including the line-84
guard, which seeks the raw condition string inside the uppercased line
(spec section 4.2 instead uppercases both sides; the difference is
preserved as the source wrote it).  Theorems about this loop are theorems
about the spec-determined algorithm, not about the committed, unparseable
function body.
-/

namespace SqlDumpSplitter

/-- ASCII fragment of Python whitespace (`str.strip` with no argument,
regex `\s`): space, tab, newline, carriage return, vertical tab, form feed. -/
def pySpace (c : Char) : Bool :=
  c == ' ' || c == '\t' || c == '\n' || c == '\r' || c == '\x0B' || c == '\x0C'

/-- Char-wise ASCII model of Python `str.upper()`. -/
def upperL (l : List Char) : List Char := l.map Char.toUpper

/-- `leadsSeq n h` holds when `n` occurs at the very start of `h`
(exact, case-sensitive comparison). -/
def leadsSeq : List Char → List Char → Bool
  | [], _ => true
  | _ :: _, [] => false
  | a :: as, b :: bs => a == b && leadsSeq as bs

/-- `hasSub n h` models the Python substring test `n in h`
(exact, case-sensitive containment of `n` somewhere in `h`). -/
def hasSub (needle : List Char) : List Char → Bool
  | [] => leadsSeq needle []
  | b :: t => leadsSeq needle (b :: t) || hasSub needle t

/-- Case-insensitive version of `leadsSeq`, comparing characters through
`Char.toUpper` as `re.IGNORECASE` does on ASCII. -/
def ciStarts : List Char → List Char → Bool
  | [], _ => true
  | _ :: _, [] => false
  | a :: as, b :: bs => a.toUpper == b.toUpper && ciStarts as bs

/-- Attempt the pattern `KW\s+([^STOP]+)` (case-insensitively) at the very
start of `s`; on success return the capture group. -/
def matchAt (kw : List Char) (stop : Char → Bool) (s : List Char) : Option (List Char) :=
  if ciStarts kw s then
    let after := s.drop kw.length
    if (after.takeWhile pySpace).isEmpty then none
    else
      let tok := (after.dropWhile pySpace).takeWhile (fun c => !(stop c))
      if tok.isEmpty then none else some tok
  else none

/-- `re.search` for the pattern `KW\s+([^STOP]+)` with `re.IGNORECASE`:
the capture of the leftmost position where the whole pattern matches. -/
def searchKw (kw : List Char) (stop : Char → Bool) : List Char → Option (List Char)
  | [] => none
  | b :: t =>
    match matchAt kw stop (b :: t) with
    | some tok => some tok
    | none => searchKw kw stop t

/-- Stop set of `[^\s(]+`: whitespace or an opening parenthesis. -/
def stopParen (c : Char) : Bool := pySpace c || c == '('

/-- Stop set of `[^\s;]+`: whitespace or a semicolon. -/
def stopSemi (c : Char) : Bool := pySpace c || c == ';'

/-- `re.search` for `(CREATE TABLE|DROP TABLE)\s+([^\s;]+)` with
`re.IGNORECASE`, returning the second group (the token after the keyword):
at each position the `CREATE TABLE` branch is tried before `DROP TABLE`. -/
def searchTable : List Char → Option (List Char)
  | [] => none
  | b :: t =>
    match matchAt ("CREATE TABLE".data) stopSemi (b :: t) with
    | some tok => some tok
    | none =>
      match matchAt ("DROP TABLE".data) stopSemi (b :: t) with
      | some tok => some tok
      | none => searchTable t

/-- Body of one iteration of the loop in `extract_function_name`
(source lines 40-59): the keyword-category dispatch for one condition whose
case-insensitive occurrence in the line has already been established, giving
the regex result for that condition (`none` when the pattern fails). -/
def condExtract (line cond : List Char) : Option (List Char) :=
  if hasSub ("FUNCTION".data) (upperL cond) then
    searchKw ("CREATE OR REPLACE FUNCTION".data) stopParen line
  else if hasSub ("VIEW".data) (upperL cond) then
    searchKw ("CREATE OR REPLACE VIEW".data) stopSemi line
  else if hasSub ("TABLE".data) (upperL cond) then
    searchTable line
  else if hasSub ("PROCEDURE".data) (upperL cond) then
    searchKw ("CREATE OR REPLACE PROCEDURE".data) stopParen line
  else none

/-- `extract_function_name` (source lines 33-61): iterate the conditions in
order; for each condition that occurs case-insensitively in the line, try
its category pattern; return the first successful capture, `None` if every
condition has been tried without success. -/
def extract_function_name (line : List Char) : List (List Char) → Option (List Char)
  | [] => none
  | cond :: rest =>
    if hasSub (upperL cond) (upperL line) then
      match condExtract line cond with
      | some nm => some nm
      | none => extract_function_name line rest
    else extract_function_name line rest

/-- `should_split` (source lines 26-31): on a (case-sensitively) matching
line increment the hit count and report a split when it reaches the trigger
count; otherwise leave the count unchanged. -/
def should_split (line : List Char) (sql_conditions : List (List Char))
    (condition_hit_count trigger_count : Int) : Bool × Int :=
  if sql_conditions.any (fun c => hasSub c line) then
    if trigger_count ≤ condition_hit_count + 1 then (true, condition_hit_count + 1)
    else (false, condition_hit_count + 1)
  else (false, condition_hit_count)

/-- Python `str.strip()` (ASCII whitespace model): drop leading and trailing
whitespace. -/
def strip (l : List Char) : List Char :=
  ((l.dropWhile pySpace).reverse.dropWhile pySpace).reverse

/-- `handle_line` (source lines 63-66): skip the line when the
ignore-blank-lines flag is set and the line strips to empty, otherwise
return the line unchanged. -/
def handle_line (line : List Char) (ignore_blank_lines : Bool) : Option (List Char) :=
  if ignore_blank_lines && (strip line).isEmpty then none else some line

/-- `DEFAULT_SQL_CONDITIONS` (source line 12). -/
def DEFAULT_SQL_CONDITIONS : List (List Char) :=
  ["DROP TABLE".data, "CREATE TABLE IF NOT EXISTS".data,
   "create or replace TABLE".data, "CREATE OR REPLACE FUNCTION".data,
   "create or replace view".data, "CREATE OR REPLACE PROCEDURE".data]

/-- Modelled from the spec: the accumulator state of section 3 (pending
lines, hit count, unit index, current name), realised by the loop variables
declared on source lines 75-77, together with the units saved so far.
`units` records, in emission order, each
`save_file(current_content, output_dir, file_name)` call as the pair
`(file_name, current_content)`; `file_count` is the variable of the same
name (which equals the number of units saved so far). -/
structure SplitState where
  current_content : List (List Char)
  condition_hit_count : Int
  file_count : Nat
  file_name : List Char
  units : List (List Char × List (List Char))
deriving DecidableEq

/-- The fallback name, Python `f'file_{k}'`. -/
def defaultName (k : Nat) : List Char := "file_".data ++ (Nat.repr k).data

/-- The state at source lines 75-77: empty content, zero hits, zero files,
default name `file_0`, nothing saved. -/
def initState : SplitState := ⟨[], 0, 0, defaultName 0, []⟩

/-- Modelled from the spec: step 2 of section 4.5 — on a matcher hit,
attempt name extraction and on success overwrite `current_name`.  What is
missing from the source is the block structure of the unparseable lines
84-88; the guard expression itself is line 84's own (the raw condition, not
uppercased, is sought in the uppercased line), and the body is lines
86-88. -/
def nameStage (sql_conditions : List (List Char)) (s : SplitState) (pl : List Char) :
    SplitState :=
  if sql_conditions.any (fun kw => hasSub kw (upperL pl)) then
    match extract_function_name pl sql_conditions with
    | some nm => { s with file_name := nm }
    | none => s
  else s

/-- Modelled from the spec: step 3a-b of section 4.5 — emit the current
unit, then reset.  The statements are source lines 92-96 (save the current
unit, bump the file counter, clear the accumulator and the hit count, reset
the name to the fallback), whose enclosing block does not parse. -/
def cutStage (s : SplitState) : SplitState :=
  { current_content := [], condition_hit_count := 0,
    file_count := s.file_count + 1,
    file_name := defaultName (s.file_count + 1),
    units := s.units ++ [(s.file_name, s.current_content)] }

/-- Modelled from the spec: steps 2-4 of section 4.5 for one retained line
— name stage, then `should_split`, then (on a split) the cut stage, then
append the line, the cut coming before the append.  What is missing from
the source is a parseable block structure for lines 84-98 (the 15-space
dedent on line 84 leaves the extent of its guard undefined); the spec
supplies that structure, and each stage uses the statements of the
corresponding source lines. -/
def processKept (sql_conditions : List (List Char)) (trigger_count : Int)
    (s : SplitState) (pl : List Char) : SplitState :=
  let s1 := nameStage sql_conditions s pl
  let r := should_split pl sql_conditions s1.condition_hit_count trigger_count
  let s2 := { s1 with condition_hit_count := r.2 }
  let s3 := if r.1 then cutStage s2 else s2
  { s3 with current_content := s3.current_content ++ [pl] }

/-- Modelled from the spec: steps 1-4 of section 4.5 for one raw input line
— the line filter (source lines 80-82, `handle_line`) followed, on a
retained line, by `processKept`; a skipped line leaves the state alone. -/
def processLine (sql_conditions : List (List Char)) (trigger_count : Int)
    (ignore_blank_lines : Bool) (s : SplitState) (line : List Char) : SplitState :=
  match handle_line line ignore_blank_lines with
  | none => s
  | some pl => processKept sql_conditions trigger_count s pl

/-- Modelled from the spec: the whole per-line loop of section 4.5
(source lines 79-98, which as committed do not parse), starting from the
freshly initialised accumulator. -/
def runLines (sql_conditions : List (List Char)) (trigger_count : Int)
    (ignore_blank_lines : Bool) (lines : List (List Char)) : SplitState :=
  lines.foldl (processLine sql_conditions trigger_count ignore_blank_lines) initState

/-- Modelled from the spec: the engine of `process_file` (source lines
68-102), abstracted over I/O — the emitted units, in emission order,
including the end-of-stream flush of a non-empty accumulator (section 4.5
step 5, source lines 100-102).  What is missing from the source is a
function body that parses: the committed lines raise `IndentationError` at
line 84, so this definition follows the spec's algorithm with the source's
statement expressions. -/
def process_file (sql_conditions : List (List Char)) (trigger_count : Int)
    (ignore_blank_lines : Bool) (lines : List (List Char)) :
    List (List Char × List (List Char)) :=
  let s := runLines sql_conditions trigger_count ignore_blank_lines lines
  if s.current_content.isEmpty then s.units
  else s.units ++ [(s.file_name, s.current_content)]

/-- Concatenation, in emission order, of the line sequences of a list of
units. -/
def concatUnits : List (List Char × List (List Char)) → List (List Char)
  | [] => []
  | u :: us => u.2 ++ concatUnits us

/-- The number of retained lines that `should_split` counts as hits. -/
def hitLineCount (sql_conditions : List (List Char)) (ignore_blank_lines : Bool)
    (lines : List (List Char)) : Nat :=
  List.countP (fun pl => sql_conditions.any (fun c => hasSub c pl))
    (lines.filterMap (fun l => handle_line l ignore_blank_lines))

/-! ### Helper lemmas -/

theorem toNat_ofNat_of_valid {n : Nat} (h : n.isValidChar) : (Char.ofNat n).toNat = n := by
  rw [Char.ofNat, dif_pos h]
  rfl

theorem toUpper_eq (c : Char) :
    c.toUpper = if c.toNat ≥ 97 ∧ c.toNat ≤ 122 then Char.ofNat (c.toNat - 32) else c := rfl

theorem toNat_toUpper (c : Char) :
    c.toUpper.toNat = if c.toNat ≥ 97 ∧ c.toNat ≤ 122 then c.toNat - 32 else c.toNat := by
  rw [toUpper_eq]
  split
  · next h => exact toNat_ofNat_of_valid (Or.inl (by omega))
  · rfl

theorem toUpper_idem (c : Char) : c.toUpper.toUpper = c.toUpper := by
  by_cases h : c.toNat ≥ 97 ∧ c.toNat ≤ 122
  · rw [toUpper_eq c.toUpper, toNat_toUpper, if_pos h, if_neg (by omega)]
  · rw [toUpper_eq c.toUpper, toNat_toUpper, if_neg h, if_neg h]

theorem upperL_idem (l : List Char) : upperL (upperL l) = upperL l := by
  induction l with
  | nil => rfl
  | cons a t ih =>
    simp only [upperL, List.map_cons] at ih ⊢
    rw [toUpper_idem, ih]

theorem leadsSeq_iff {p q : List Char} : leadsSeq p q = true ↔ ∃ r, q = p ++ r := by
  induction p generalizing q with
  | nil => simp [leadsSeq]
  | cons a as ih =>
    cases q with
    | nil =>
      simp only [leadsSeq, List.cons_append]
      constructor
      · intro h; cases h
      · rintro ⟨r, h⟩; cases h
    | cons b bs =>
      simp only [leadsSeq, Bool.and_eq_true, beq_iff_eq, ih, List.cons_append]
      constructor
      · rintro ⟨rfl, r, rfl⟩; exact ⟨r, rfl⟩
      · rintro ⟨r, h⟩
        injection h with h1 h2
        exact ⟨h1.symm, r, h2⟩

theorem hasSub_iff {n h : List Char} : hasSub n h = true ↔ ∃ x y, h = x ++ n ++ y := by
  induction h with
  | nil =>
    cases n with
    | nil => simp [hasSub, leadsSeq]
    | cons a as =>
      simp only [hasSub, leadsSeq]
      constructor
      · intro hc; cases hc
      · rintro ⟨x, y, hxy⟩
        rcases List.append_eq_nil.mp (List.append_eq_nil.mp hxy.symm).1 with ⟨-, h2⟩
        cases h2
  | cons b t ih =>
    simp only [hasSub, Bool.or_eq_true, leadsSeq_iff, ih]
    constructor
    · rintro (⟨r, hr⟩ | ⟨x, y, hxy⟩)
      · exact ⟨[], r, by simp [hr]⟩
      · exact ⟨b :: x, y, by simp [hxy]⟩
    · rintro ⟨x, y, hxy⟩
      cases x with
      | nil => exact Or.inl ⟨y, by simpa using hxy⟩
      | cons c xs =>
        injection hxy with h1 h2
        exact Or.inr ⟨xs, y, by simpa using h2⟩

theorem hasSub_map {f : Char → Char} {n h : List Char} (hs : hasSub n h = true) :
    hasSub (n.map f) (h.map f) = true := by
  rcases hasSub_iff.mp hs with ⟨x, y, rfl⟩
  exact hasSub_iff.mpr ⟨x.map f, y.map f, by simp⟩

/-- A raw (case-sensitive) occurrence yields an occurrence of the uppercased
needle in the uppercased haystack. -/
theorem hasSub_upper_of_hasSub {n h : List Char} (hs : hasSub n h = true) :
    hasSub (upperL n) (upperL h) = true :=
  hasSub_map hs

/-- An occurrence of a raw needle in an already-uppercased haystack yields an
occurrence of the uppercased needle there as well. -/
theorem hasSub_upper_of_hasSub_upperL {n h : List Char}
    (hs : hasSub n (upperL h) = true) : hasSub (upperL n) (upperL h) = true := by
  have h2 := hasSub_map (f := Char.toUpper) hs
  rw [show List.map Char.toUpper (upperL h) = upperL h from upperL_idem h] at h2
  exact h2

theorem ciStarts_self_append (p s : List Char) : ciStarts p (p ++ s) = true := by
  induction p with
  | nil => rfl
  | cons a as ih => simp [ciStarts, ih]

theorem takeWhile_all_append {p : Char → Bool} {l₁ : List Char} {b : Char}
    {l₂ : List Char} (h1 : ∀ a ∈ l₁, p a = true) (hb : p b = false) :
    (l₁ ++ b :: l₂).takeWhile p = l₁ := by
  induction l₁ with
  | nil => simp [List.takeWhile_cons, hb]
  | cons a t ih =>
    rw [List.cons_append, List.takeWhile_cons_of_pos (h1 a (by simp))]
    rw [ih (fun x hx => h1 x (by simp [hx]))]

theorem processLine_none {sql_conditions : List (List Char)} {trigger_count : Int}
    {ignore_blank_lines : Bool} {s : SplitState} {line : List Char}
    (h : handle_line line ignore_blank_lines = none) :
    processLine sql_conditions trigger_count ignore_blank_lines s line = s := by
  simp [processLine, h]

theorem processLine_some {sql_conditions : List (List Char)} {trigger_count : Int}
    {ignore_blank_lines : Bool} {s : SplitState} {line pl : List Char}
    (h : handle_line line ignore_blank_lines = some pl) :
    processLine sql_conditions trigger_count ignore_blank_lines s line
      = processKept sql_conditions trigger_count s pl := by
  simp [processLine, h]

theorem handle_line_cases (line : List Char) (ignore_blank_lines : Bool) :
    handle_line line ignore_blank_lines = none ∨
    handle_line line ignore_blank_lines = some line := by
  unfold handle_line
  split
  · exact Or.inl rfl
  · exact Or.inr rfl

theorem nameStage_eq (sql_conditions : List (List Char)) (s : SplitState)
    (pl : List Char) :
    ∃ nm, nameStage sql_conditions s pl = { s with file_name := nm } := by
  unfold nameStage
  split
  · cases h : extract_function_name pl sql_conditions with
    | none => exact ⟨s.file_name, rfl⟩
    | some nm => exact ⟨nm, rfl⟩
  · exact ⟨s.file_name, rfl⟩

theorem concatUnits_append (us vs : List (List Char × List (List Char))) :
    concatUnits (us ++ vs) = concatUnits us ++ concatUnits vs := by
  induction us with
  | nil => rfl
  | cons u ut ih => simp [concatUnits, ih]

theorem concat_processKept (sql_conditions : List (List Char)) (trigger_count : Int)
    (s : SplitState) (pl : List Char) :
    concatUnits (processKept sql_conditions trigger_count s pl).units
      ++ (processKept sql_conditions trigger_count s pl).current_content
    = concatUnits s.units ++ s.current_content ++ [pl] := by
  obtain ⟨nm, hnm⟩ := nameStage_eq sql_conditions s pl
  simp only [processKept, hnm]
  split
  · simp [cutStage, concatUnits_append, concatUnits, List.append_assoc]
  · simp [List.append_assoc]

theorem concat_foldl (sql_conditions : List (List Char)) (trigger_count : Int)
    (ignore_blank_lines : Bool) :
    ∀ (lines : List (List Char)) (s : SplitState),
    concatUnits
        (lines.foldl (processLine sql_conditions trigger_count ignore_blank_lines) s).units
      ++ (lines.foldl (processLine sql_conditions trigger_count ignore_blank_lines) s).current_content
    = concatUnits s.units ++ s.current_content
      ++ lines.filterMap (fun l => handle_line l ignore_blank_lines) := by
  intro lines
  induction lines with
  | nil => intro s; simp
  | cons l ls ih =>
    intro s
    rw [List.foldl_cons, ih, List.filterMap_cons]
    rcases handle_line_cases l ignore_blank_lines with h | h
    · rw [processLine_none h, h]
    · rw [processLine_some h, h, concat_processKept]
      simp [List.append_assoc]

theorem concat_runLines (sql_conditions : List (List Char)) (trigger_count : Int)
    (ignore_blank_lines : Bool) (lines : List (List Char)) :
    concatUnits (runLines sql_conditions trigger_count ignore_blank_lines lines).units
      ++ (runLines sql_conditions trigger_count ignore_blank_lines lines).current_content
    = lines.filterMap (fun l => handle_line l ignore_blank_lines) := by
  unfold runLines
  rw [concat_foldl]
  simp [initState, concatUnits]

theorem processKept_count (sql_conditions : List (List Char)) (trigger_count : Int)
    (s : SplitState) (pl : List Char) :
    (sql_conditions.any (fun c => hasSub c pl) = false
      ∧ (processKept sql_conditions trigger_count s pl).units.length = s.units.length
      ∧ (processKept sql_conditions trigger_count s pl).condition_hit_count
          = s.condition_hit_count)
    ∨ (sql_conditions.any (fun c => hasSub c pl) = true
      ∧ ((trigger_count ≤ s.condition_hit_count + 1
            ∧ (processKept sql_conditions trigger_count s pl).units.length
                = s.units.length + 1
            ∧ (processKept sql_conditions trigger_count s pl).condition_hit_count = 0)
        ∨ (¬ trigger_count ≤ s.condition_hit_count + 1
            ∧ (processKept sql_conditions trigger_count s pl).units.length
                = s.units.length
            ∧ (processKept sql_conditions trigger_count s pl).condition_hit_count
                = s.condition_hit_count + 1))) := by
  obtain ⟨nm, hnm⟩ := nameStage_eq sql_conditions s pl
  by_cases hm : sql_conditions.any (fun c => hasSub c pl) = true
  · right
    refine ⟨hm, ?_⟩
    by_cases htr : trigger_count ≤ s.condition_hit_count + 1
    · left
      refine ⟨htr, ?_, ?_⟩ <;>
        simp [processKept, hnm, should_split, hm, htr, cutStage]
    · right
      refine ⟨htr, ?_, ?_⟩ <;>
        simp [processKept, hnm, should_split, hm, htr, cutStage]
  · left
    rw [Bool.not_eq_true] at hm
    refine ⟨hm, ?_, ?_⟩ <;>
      simp [processKept, hnm, should_split, hm]

theorem cuts_eq (sql_conditions : List (List Char)) (ignore_blank_lines : Bool)
    (t : Nat) (ht : 1 ≤ t) :
    ∀ (lines : List (List Char)) (s : SplitState) (k : Nat),
      s.condition_hit_count = (k : Int) → k < t →
      ∃ k2 : Nat,
        (lines.foldl (processLine sql_conditions (t : Int) ignore_blank_lines) s).condition_hit_count
          = (k2 : Int)
        ∧ k2 < t
        ∧ (lines.foldl (processLine sql_conditions (t : Int) ignore_blank_lines) s).units.length * t
            + k2
          = s.units.length * t + k + hitLineCount sql_conditions ignore_blank_lines lines := by
  intro lines
  induction lines with
  | nil =>
    intro s k hk hlt
    exact ⟨k, hk, hlt, by simp [hitLineCount]⟩
  | cons l ls ih =>
    intro s k hk hlt
    rw [List.foldl_cons]
    rcases handle_line_cases l ignore_blank_lines with h | h
    · rw [processLine_none h]
      have hcount : hitLineCount sql_conditions ignore_blank_lines (l :: ls)
          = hitLineCount sql_conditions ignore_blank_lines ls := by
        simp [hitLineCount, List.filterMap_cons, h]
      rw [hcount]
      exact ih s k hk hlt
    · rw [processLine_some h]
      rcases processKept_count sql_conditions (t : Int) s l with
        ⟨hm, hu, hh⟩ | ⟨hm, ⟨htr, hu, hh⟩ | ⟨htr, hu, hh⟩⟩
      · have hcount : hitLineCount sql_conditions ignore_blank_lines (l :: ls)
            = hitLineCount sql_conditions ignore_blank_lines ls := by
          simp [hitLineCount, List.filterMap_cons, h, List.countP_cons, hm]
        obtain ⟨k2, hk2, hk2lt, heq⟩ := ih _ k (by rw [hh, hk]) hlt
        refine ⟨k2, hk2, hk2lt, ?_⟩
        rw [heq, hu, hcount]
      · have hcount : hitLineCount sql_conditions ignore_blank_lines (l :: ls)
            = hitLineCount sql_conditions ignore_blank_lines ls + 1 := by
          simp [hitLineCount, List.filterMap_cons, h, List.countP_cons, hm]
        have hkt : k + 1 = t := by
          rw [hk] at htr
          omega
        obtain ⟨k2, hk2, hk2lt, heq⟩ := ih _ 0 (by rw [hh]; rfl) (by omega)
        refine ⟨k2, hk2, hk2lt, ?_⟩
        rw [heq, hu, hcount, Nat.succ_mul]
        omega
      · have hcount : hitLineCount sql_conditions ignore_blank_lines (l :: ls)
            = hitLineCount sql_conditions ignore_blank_lines ls + 1 := by
          simp [hitLineCount, List.filterMap_cons, h, List.countP_cons, hm]
        have hklt : k + 1 < t := by
          rw [hk] at htr
          omega
        obtain ⟨k2, hk2, hk2lt, heq⟩ := ih _ (k + 1) (by rw [hh, hk]; push_cast; ring) hklt
        refine ⟨k2, hk2, hk2lt, ?_⟩
        rw [heq, hu, hcount]
        omega

/-! ### Claims -/

/-- Claim C1 (of the spec-modelled loop): for every configuration,
concatenating in emission order the line sequences of all emitted units
yields exactly the filtered input line sequence (the input lines minus
those skipped by blank-line filtering); no retained line is dropped,
duplicated or reordered.  The committed program itself emits nothing on any
input (`IndentationError` at source line 84), so this establishes the
claimed identity for the spec's intended engine, not for the committed
file. -/
theorem c1_reconcatenation (sql_conditions : List (List Char)) (trigger_count : Int)
    (ignore_blank_lines : Bool) (lines : List (List Char)) :
    concatUnits (process_file sql_conditions trigger_count ignore_blank_lines lines)
      = lines.filterMap (fun l => handle_line l ignore_blank_lines) := by
  have h := concat_runLines sql_conditions trigger_count ignore_blank_lines lines
  simp only [process_file]
  by_cases hc :
      (runLines sql_conditions trigger_count ignore_blank_lines lines).current_content.isEmpty
      = true
  · rw [if_pos hc]
    rw [List.isEmpty_iff.mp hc, List.append_nil] at h
    exact h
  · rw [if_neg hc, concatUnits_append]
    simpa [concatUnits] using h

/-- Claim C3 (of the spec-modelled loop): for every configuration with
trigger count T at least 1, the
number of cuts performed before the final flush equals floor(K / T), where
K is the number of retained lines that `should_split` counts as hits; and
with T equal to 1 every matching line triggers an immediate cut. -/
theorem c3_cut_count (sql_conditions : List (List Char)) (ignore_blank_lines : Bool)
    (lines : List (List Char)) (t : Nat) (ht : 1 ≤ t) :
    (runLines sql_conditions (t : Int) ignore_blank_lines lines).units.length
      = hitLineCount sql_conditions ignore_blank_lines lines / t
    ∧ (∀ (line : List Char) (cs : List (List Char)) (h : Int), 0 ≤ h →
        cs.any (fun c => hasSub c line) = true →
        (should_split line cs h 1).1 = true) := by
  constructor
  · obtain ⟨k2, hk2, hk2lt, heq⟩ :=
      cuts_eq sql_conditions ignore_blank_lines t ht lines initState 0 rfl (by omega)
    have hval : hitLineCount sql_conditions ignore_blank_lines lines
        = t * (lines.foldl
            (processLine sql_conditions (t : Int) ignore_blank_lines) initState).units.length
          + k2 := by
      have h0 : initState.units.length = 0 := rfl
      rw [h0, Nat.zero_mul, Nat.zero_add, Nat.mul_comm] at heq
      exact heq.symm
    show (lines.foldl
        (processLine sql_conditions (t : Int) ignore_blank_lines) initState).units.length = _
    rw [hval, Nat.mul_add_div (by omega), Nat.div_eq_of_lt hk2lt, Nat.add_zero]
  · intro line cs h h0 hm
    simp only [should_split, hm, if_true]
    rw [if_pos (by omega)]

/-- Witness for C3 on the three-line scenario: two of the three retained
lines are hits, so with trigger count 1 exactly two cuts happen before the
flush, and a hit with count 0 and trigger 1 splits at once. -/
theorem c3_cut_count_witness :
    (runLines DEFAULT_SQL_CONDITIONS (1 : Int) false
        ["DROP TABLE foo;\n".data, "SELECT 1;\n".data, "DROP TABLE bar;\n".data]).units.length
      = hitLineCount DEFAULT_SQL_CONDITIONS false
          ["DROP TABLE foo;\n".data, "SELECT 1;\n".data, "DROP TABLE bar;\n".data] / 1
    ∧ (should_split ("DROP TABLE foo;\n".data) DEFAULT_SQL_CONDITIONS 0 1).1 = true :=
  ⟨(c3_cut_count DEFAULT_SQL_CONDITIONS false
      ["DROP TABLE foo;\n".data, "SELECT 1;\n".data, "DROP TABLE bar;\n".data] 1
      (by decide)).1,
   (c3_cut_count DEFAULT_SQL_CONDITIONS false
      ["DROP TABLE foo;\n".data, "SELECT 1;\n".data, "DROP TABLE bar;\n".data] 1
      (by decide)).2 ("DROP TABLE foo;\n".data) DEFAULT_SQL_CONDITIONS 0 (by decide)
      (by decide)⟩

/-- Claim C4, counterexample: the line "drop table foo;" contains the
default condition "DROP TABLE" when both sides are uppercased, yet
`should_split` does not count a hit for it (its containment test is
case-sensitive), refuting the claimed iff. -/
theorem c4_counterexample :
    DEFAULT_SQL_CONDITIONS.any
      (fun c => hasSub (upperL c) (upperL ("drop table foo;\n".data))) = true
    ∧ should_split ("drop table foo;\n".data) DEFAULT_SQL_CONDITIONS 0 1
        = (false, 0) := by decide

/-- Claim C4 (amended): a line counts as a condition hit (incrementing the
hit count used by the cut decision) if and only if it contains at least one
condition string as an exact, case-sensitive substring; `should_split` does
not uppercase either side, so differently-cased occurrences do not count. -/
theorem c4_amended (line : List Char) (sql_conditions : List (List Char))
    (condition_hit_count trigger_count : Int) :
    (should_split line sql_conditions condition_hit_count trigger_count).2
      = (if sql_conditions.any (fun c => hasSub c line) then condition_hit_count + 1
         else condition_hit_count) := by
  by_cases hm : sql_conditions.any (fun c => hasSub c line) = true
  · simp only [should_split, hm, if_true]
    split <;> rfl
  · simp only [should_split, hm, if_false, Bool.not_eq_true] at hm ⊢
    simp [hm]

/-- Claim C8 (of the spec-modelled loop and the intact decision functions):
the engine is total and an empty input yields zero units: for every
configuration, processing no lines emits nothing (in particular no empty
trailing unit is flushed), the line filter always returns either a skip or
the unchanged line, the name extractor always returns either no name or
some name, and the cut decision always returns one of its three
well-defined outcomes.  This is the behavior the spec intends; the
committed file itself refutes the claim, raising `IndentationError` at
parse time (source line 84) on every run, before any input is read. -/
theorem c8_total_and_empty :
    (∀ (sql_conditions : List (List Char)) (trigger_count : Int)
        (ignore_blank_lines : Bool),
        process_file sql_conditions trigger_count ignore_blank_lines [] = [])
    ∧ (∀ (line : List Char) (ignore_blank_lines : Bool),
        handle_line line ignore_blank_lines = none ∨
        handle_line line ignore_blank_lines = some line)
    ∧ (∀ (line : List Char) (sql_conditions : List (List Char)),
        extract_function_name line sql_conditions = none ∨
        ∃ nm, extract_function_name line sql_conditions = some nm)
    ∧ (∀ (line : List Char) (sql_conditions : List (List Char)) (h t : Int),
        should_split line sql_conditions h t = (true, h + 1) ∨
        should_split line sql_conditions h t = (false, h + 1) ∨
        should_split line sql_conditions h t = (false, h)) := by
  refine ⟨fun _ _ _ => rfl, handle_line_cases, fun line sql_conditions => ?_, ?_⟩
  · cases h : extract_function_name line sql_conditions with
    | none => exact Or.inl rfl
    | some nm => exact Or.inr ⟨nm, rfl⟩
  · intro line sql_conditions h t
    unfold should_split
    split
    · split
      · exact Or.inl rfl
      · exact Or.inr (Or.inl rfl)
    · exact Or.inr (Or.inr rfl)

/-- Claim C9 (of the spec-modelled loop): a line skipped by the line filter
(ignore-blank-lines set and the line stripping to empty) leaves the whole
engine state unchanged: pending content, hit count, file counter, current
name and emitted units are all exactly as before, so the skipped line
reaches neither the matcher nor the cut decision and appears in no unit.
The committed program processes no line at all (`IndentationError` at
source line 84). -/
theorem c9_skip_frame (sql_conditions : List (List Char)) (trigger_count : Int)
    (s : SplitState) (line : List Char) (h : strip line = []) :
    processLine sql_conditions trigger_count true s line = s := by
  have hl : handle_line line true = none := by simp [handle_line, h]
  exact processLine_none hl

/-- Witness for C9 at the whitespace-only line "  \t\n" and the initial
state. -/
theorem c9_skip_frame_witness :
    strip ("  \t\n".data) = [] ∧
    processLine DEFAULT_SQL_CONDITIONS 1 true initState ("  \t\n".data) = initState :=
  ⟨by decide,
   c9_skip_frame DEFAULT_SQL_CONDITIONS 1 initState ("  \t\n".data) (by decide)⟩

theorem handle_line_some_eq {line pl : List Char} {ignore_blank_lines : Bool}
    (h : handle_line line ignore_blank_lines = some pl) : pl = line := by
  rcases handle_line_cases line ignore_blank_lines with h2 | h2 <;> rw [h2] at h
  · cases h
  · exact (Option.some_inj.mp h).symm

theorem processKept_no_match {sql_conditions : List (List Char)} {trigger_count : Int}
    {s : SplitState} {pl : List Char}
    (h1 : sql_conditions.any (fun c => hasSub c pl) = false)
    (h2 : sql_conditions.any (fun kw => hasSub kw (upperL pl)) = false) :
    processKept sql_conditions trigger_count s pl
      = { s with current_content := s.current_content ++ [pl] } := by
  simp [processKept, nameStage, should_split, h1, h2]

theorem no_match_foldl (sql_conditions : List (List Char)) (trigger_count : Int)
    (ignore_blank_lines : Bool) :
    ∀ (lines : List (List Char)) (s : SplitState),
      (∀ l ∈ lines, (handle_line l ignore_blank_lines).isSome = true →
        sql_conditions.any (fun c => hasSub c l) = false
          ∧ sql_conditions.any (fun kw => hasSub kw (upperL l)) = false) →
      lines.foldl (processLine sql_conditions trigger_count ignore_blank_lines) s
        = { s with current_content :=
              s.current_content
                ++ lines.filterMap (fun l => handle_line l ignore_blank_lines) } := by
  intro lines
  induction lines with
  | nil => intro s _; simp
  | cons l ls ih =>
    intro s hno
    rw [List.foldl_cons, List.filterMap_cons]
    rcases handle_line_cases l ignore_blank_lines with h | h
    · rw [processLine_none h, h]
      exact ih s (fun x hx => hno x (by simp [hx]))
    · obtain ⟨hm, hg⟩ := hno l (by simp) (by simp [h])
      rw [processLine_some h, h, processKept_no_match hm hg,
        ih _ (fun x hx => hno x (by simp [hx]))]
      simp

/-- Claim C5 (of the spec-modelled loop): on an input in which no retained
line contains any condition string (comparing case-insensitively, both
sides uppercased), and with at least one retained line, the engine emits
exactly one unit, named `file_0`, whose line sequence is the whole filtered
input in order.  The committed program emits nothing on any input
(`IndentationError` at source line 84). -/
theorem c5_default_name (sql_conditions : List (List Char)) (trigger_count : Int)
    (ignore_blank_lines : Bool) (lines : List (List Char))
    (hci : ∀ l ∈ lines, (handle_line l ignore_blank_lines).isSome = true →
      ∀ c ∈ sql_conditions, hasSub (upperL c) (upperL l) = false)
    (hne : lines.filterMap (fun l => handle_line l ignore_blank_lines) ≠ []) :
    process_file sql_conditions trigger_count ignore_blank_lines lines
      = [(defaultName 0,
          lines.filterMap (fun l => handle_line l ignore_blank_lines))] := by
  have hno : ∀ l ∈ lines, (handle_line l ignore_blank_lines).isSome = true →
      sql_conditions.any (fun c => hasSub c l) = false
        ∧ sql_conditions.any (fun kw => hasSub kw (upperL l)) = false := by
    intro l hl hs
    constructor
    · rw [List.any_eq_false]
      intro c hc
      intro habs
      have h2 := hasSub_upper_of_hasSub habs
      rw [hci l hl hs c hc] at h2
      cases h2
    · rw [List.any_eq_false]
      intro c hc
      intro habs
      have h2 := hasSub_upper_of_hasSub_upperL habs
      rw [hci l hl hs c hc] at h2
      cases h2
  have hrun := no_match_foldl sql_conditions trigger_count ignore_blank_lines lines
    initState hno
  simp only [process_file, runLines, hrun]
  rw [if_neg]
  · simp [initState, concatUnits]
  · simp only [initState, List.nil_append]
    rw [List.isEmpty_iff]
    exact hne

/-- Witness for C5: two lines, one whitespace-only and skipped under the
ignore-blank-lines flag, the other retained and matching no default
condition, give the single unit `file_0` with just the retained line. -/
theorem c5_default_name_witness :
    process_file DEFAULT_SQL_CONDITIONS 1 true ["SELECT 1;\n".data, "   \n".data]
      = [(defaultName 0, ["SELECT 1;\n".data])] := by
  have h := c5_default_name DEFAULT_SQL_CONDITIONS 1 true
    ["SELECT 1;\n".data, "   \n".data] (by decide) (by decide)
  rw [h]
  rfl

theorem processKept_match_no_cut {sql_conditions : List (List Char)} {trigger_count : Int}
    {s : SplitState} {pl nm : List Char}
    (hg : sql_conditions.any (fun kw => hasSub kw (upperL pl)) = true)
    (he : extract_function_name pl sql_conditions = some nm)
    (hs : (should_split pl sql_conditions s.condition_hit_count trigger_count).1 = false) :
    processKept sql_conditions trigger_count s pl
      = { s with file_name := nm,
                 condition_hit_count :=
                   (should_split pl sql_conditions s.condition_hit_count trigger_count).2,
                 current_content := s.current_content ++ [pl] } := by
  simp [processKept, nameStage, hg, he, hs]

/-- Claim C6 (of the spec-modelled loop): when a unit accumulates two lines
and the name extractor succeeds on both, with neither line triggering a
cut, the unit emitted at the end-of-stream flush carries the name from the
LAST successful extraction, not the first; the earlier extraction is
overwritten even though its line was appended before.  The committed
program emits nothing on any input (`IndentationError` at source
line 84). -/
theorem c6_last_extraction_wins (sql_conditions : List (List Char)) (trigger_count : Int)
    (ignore_blank_lines : Bool) (l1 l2 n1 n2 : List Char)
    (h1 : handle_line l1 ignore_blank_lines = some l1)
    (h2 : handle_line l2 ignore_blank_lines = some l2)
    (g1 : sql_conditions.any (fun kw => hasSub kw (upperL l1)) = true)
    (e1 : extract_function_name l1 sql_conditions = some n1)
    (g2 : sql_conditions.any (fun kw => hasSub kw (upperL l2)) = true)
    (e2 : extract_function_name l2 sql_conditions = some n2)
    (sp1 : (should_split l1 sql_conditions 0 trigger_count).1 = false)
    (sp2 : (should_split l2 sql_conditions
        (should_split l1 sql_conditions 0 trigger_count).2 trigger_count).1 = false) :
    process_file sql_conditions trigger_count ignore_blank_lines [l1, l2]
      = [(n2, [l1, l2])] := by
  have hinit : initState.condition_hit_count = (0 : Int) := rfl
  simp only [process_file, runLines, List.foldl_cons, List.foldl_nil]
  rw [processLine_some h1, processKept_match_no_cut g1 e1 (by rw [hinit]; exact sp1)]
  rw [processLine_some h2]
  rw [processKept_match_no_cut g2 e2 (by simp only [hinit]; exact sp2)]
  simp [initState]

/-- Witness for C6: with trigger count 3 neither "DROP TABLE" line cuts, so
the flushed unit holds both lines and is named "bar", from the second
line's extraction. -/
theorem c6_last_extraction_wins_witness :
    process_file DEFAULT_SQL_CONDITIONS 3 false
      ["DROP TABLE foo;\n".data, "DROP TABLE bar;\n".data]
      = [("bar".data, ["DROP TABLE foo;\n".data, "DROP TABLE bar;\n".data])] :=
  c6_last_extraction_wins DEFAULT_SQL_CONDITIONS 3 false
    ("DROP TABLE foo;\n".data) ("DROP TABLE bar;\n".data) ("foo".data) ("bar".data)
    (by decide) (by decide) (by decide) (by decide) (by decide) (by decide)
    (by decide) (by decide)

/-- Claim C10: when a condition occurs case-insensitively in the line but
its category pattern fails on the line, the name extractor does not give up:
it moves on to the remaining conditions in declared order, and it returns no
name only when every condition has either failed its occurrence test or
failed its pattern. -/
theorem c10_extractor_continues :
    (∀ (line cond : List Char) (rest : List (List Char)),
        hasSub (upperL cond) (upperL line) = true →
        condExtract line cond = none →
        extract_function_name line (cond :: rest) = extract_function_name line rest)
    ∧ (∀ (line : List Char) (sql_conditions : List (List Char)),
        extract_function_name line sql_conditions = none ↔
          ∀ cond ∈ sql_conditions,
            hasSub (upperL cond) (upperL line) = false
              ∨ condExtract line cond = none) := by
  constructor
  · intro line cond rest hci hfail
    simp [extract_function_name, hci, hfail]
  · intro line sql_conditions
    induction sql_conditions with
    | nil => simp [extract_function_name]
    | cons c cs ih =>
      by_cases hci : hasSub (upperL c) (upperL line) = true
      · cases hfail : condExtract line c with
        | none => simp [extract_function_name, hci, hfail, ih]
        | some nm => simp [extract_function_name, hci, hfail]
      · rw [Bool.not_eq_true] at hci
        simp [extract_function_name, hci, ih]

/-- Witness for C10: the first default condition "DROP TABLE" occurs in the
line but its table pattern fails (a semicolon follows the keyword), and the
extractor still finds "f" through the later FUNCTION condition. -/
theorem c10_extractor_continues_witness :
    extract_function_name ("DROP TABLE; CREATE OR REPLACE FUNCTION f(a)\n".data)
        DEFAULT_SQL_CONDITIONS
      = extract_function_name ("DROP TABLE; CREATE OR REPLACE FUNCTION f(a)\n".data)
          ["CREATE TABLE IF NOT EXISTS".data, "create or replace TABLE".data,
           "CREATE OR REPLACE FUNCTION".data, "create or replace view".data,
           "CREATE OR REPLACE PROCEDURE".data]
    ∧ extract_function_name ("DROP TABLE; CREATE OR REPLACE FUNCTION f(a)\n".data)
        DEFAULT_SQL_CONDITIONS = some ("f".data) :=
  ⟨c10_extractor_continues.1 ("DROP TABLE; CREATE OR REPLACE FUNCTION f(a)\n".data)
     ("DROP TABLE".data)
     ["CREATE TABLE IF NOT EXISTS".data, "create or replace TABLE".data,
      "CREATE OR REPLACE FUNCTION".data, "create or replace view".data,
      "CREATE OR REPLACE PROCEDURE".data]
     (by decide) (by decide),
   by decide⟩

theorem upperL_append (a b : List Char) : upperL (a ++ b) = upperL a ++ upperL b :=
  List.map_append Char.toUpper a b

theorem hasSub_self_append (n y : List Char) : hasSub n (n ++ y) = true :=
  hasSub_iff.mpr ⟨[], y, by simp⟩

theorem matchAt_none_of_ciStarts {kw : List Char} {stop : Char → Bool} {l : List Char}
    (h : ciStarts kw l = false) : matchAt kw stop l = none := by
  simp [matchAt, h]

theorem ciStarts_cons_ne {a b : Char} (h : (a.toUpper == b.toUpper) = false)
    (as bs : List Char) : ciStarts (a :: as) (b :: bs) = false := by
  simp [ciStarts, h]

theorem matchAt_token (kw : List Char) (stop : Char → Bool) (t : List Char) (b : Char)
    (rest : List Char) (ht : t ≠ []) (htok : ∀ c ∈ t, stop c = false)
    (hps : ∀ c ∈ t, pySpace c = false) (hb : stop b = true) :
    matchAt kw stop (kw ++ ' ' :: (t ++ b :: rest)) = some t := by
  cases t with
  | nil => exact absurd rfl ht
  | cons c ts =>
    have e1 : ciStarts kw (kw ++ ' ' :: (c :: ts ++ b :: rest)) = true :=
      ciStarts_self_append kw _
    have e2 : (kw ++ ' ' :: (c :: ts ++ b :: rest)).drop kw.length
        = ' ' :: (c :: ts ++ b :: rest) := List.drop_left kw _
    have e3 : (' ' :: (c :: ts ++ b :: rest)).takeWhile pySpace
        = ' ' :: ((c :: ts ++ b :: rest).takeWhile pySpace) :=
      List.takeWhile_cons_of_pos (by decide)
    have e4 : (' ' :: (c :: ts ++ b :: rest)).dropWhile pySpace
        = (c :: ts ++ b :: rest).dropWhile pySpace :=
      List.dropWhile_cons_of_pos (by decide)
    have e5 : (c :: ts ++ b :: rest).dropWhile pySpace = c :: ts ++ b :: rest := by
      rw [List.cons_append]
      exact List.dropWhile_cons_of_neg (by simp [hps c (by simp)])
    have e6 : ((c :: ts) ++ b :: rest).takeWhile (fun x => !(stop x)) = c :: ts :=
      takeWhile_all_append (fun a ha => by simp [htok a ha]) (by simp [hb])
    simp only [matchAt, e1, if_true, e2, e3, e4, e5, e6, List.isEmpty_cons]
    simp

theorem searchTable_cons_create {b : Char} {t2 tok : List Char}
    (h1 : matchAt ("CREATE TABLE".data) stopSemi (b :: t2) = some tok) :
    searchTable (b :: t2) = some tok := by
  simp [searchTable, h1]

theorem searchTable_cons_drop {b : Char} {t2 tok : List Char}
    (h1 : matchAt ("CREATE TABLE".data) stopSemi (b :: t2) = none)
    (h2 : matchAt ("DROP TABLE".data) stopSemi (b :: t2) = some tok) :
    searchTable (b :: t2) = some tok := by
  simp [searchTable, h1, h2]

theorem searchTable_drop_line (t rest : List Char) (ht : t ≠ [])
    (htok : ∀ c ∈ t, stopSemi c = false) :
    searchTable ("DROP TABLE".data ++ ' ' :: (t ++ ';' :: rest)) = some t := by
  have hps : ∀ c ∈ t, pySpace c = false := by
    intro c hc
    have h2 := htok c hc
    simp only [stopSemi, Bool.or_eq_false_iff] at h2
    exact h2.1
  have hm2 : matchAt ("DROP TABLE".data) stopSemi
      ("DROP TABLE".data ++ ' ' :: (t ++ ';' :: rest)) = some t :=
    matchAt_token ("DROP TABLE".data) stopSemi t ';' rest ht htok hps (by decide)
  have hcons : "DROP TABLE".data ++ ' ' :: (t ++ ';' :: rest)
      = 'D' :: ("ROP TABLE".data ++ ' ' :: (t ++ ';' :: rest)) := rfl
  have hm1 : matchAt ("CREATE TABLE".data) stopSemi
      ("DROP TABLE".data ++ ' ' :: (t ++ ';' :: rest)) = none := by
    apply matchAt_none_of_ciStarts
    rw [hcons, show "CREATE TABLE".data = 'C' :: "REATE TABLE".data from rfl]
    exact ciStarts_cons_ne (by decide) _ _
  rw [hcons] at hm1 hm2 ⊢
  exact searchTable_cons_drop hm1 hm2

theorem searchTable_create_exists_line (rest2 : List Char) :
    searchTable ("CREATE TABLE IF NOT EXISTS ".data ++ rest2) = some ("IF".data) := by
  have hline : "CREATE TABLE IF NOT EXISTS ".data ++ rest2
      = "CREATE TABLE".data ++ ' ' :: ("IF".data ++ ' ' :: ("NOT EXISTS ".data ++ rest2)) := by
    rw [show "CREATE TABLE IF NOT EXISTS ".data
        = "CREATE TABLE".data ++ ' ' :: ("IF".data ++ ' ' :: "NOT EXISTS ".data) from by decide]
    simp only [List.append_assoc, List.cons_append]
  have hm1 : matchAt ("CREATE TABLE".data) stopSemi
      ("CREATE TABLE".data ++ ' ' :: ("IF".data ++ ' ' :: ("NOT EXISTS ".data ++ rest2)))
      = some ("IF".data) :=
    matchAt_token ("CREATE TABLE".data) stopSemi ("IF".data) ' '
      ("NOT EXISTS ".data ++ rest2) (by decide) (by decide) (by decide) (by decide)
  have hcons : "CREATE TABLE".data ++ ' ' :: ("IF".data ++ ' ' :: ("NOT EXISTS ".data ++ rest2))
      = 'C' :: ("REATE TABLE".data ++ ' ' :: ("IF".data ++ ' ' :: ("NOT EXISTS ".data ++ rest2))) :=
    rfl
  rw [hline]
  rw [hcons] at hm1 ⊢
  exact searchTable_cons_create hm1

theorem condExtract_table {line cond : List Char}
    (hf : hasSub ("FUNCTION".data) (upperL cond) = false)
    (hv : hasSub ("VIEW".data) (upperL cond) = false)
    (htab : hasSub ("TABLE".data) (upperL cond) = true) :
    condExtract line cond = searchTable line := by
  simp [condExtract, hf, hv, htab]

theorem extract_cons_found {line cond : List Char} {rest : List (List Char)}
    {nm : List Char} (hci : hasSub (upperL cond) (upperL line) = true)
    (he : condExtract line cond = some nm) :
    extract_function_name line (cond :: rest) = some nm := by
  simp [extract_function_name, hci, he]

theorem extract_cons_skip {line cond : List Char} {rest : List (List Char)}
    (hci : hasSub (upperL cond) (upperL line) = false) :
    extract_function_name line (cond :: rest) = extract_function_name line rest := by
  simp [extract_function_name, hci]

/-- Claim C7, counterexample: on the line "CREATE TABLE IF NOT EXISTS t
(x int);" the extractor returns "IF" — the token right after "CREATE
TABLE" — and not the table name "t" the claim promises. -/
theorem c7_counterexample :
    extract_function_name ("CREATE TABLE IF NOT EXISTS t (x int);\n".data)
        DEFAULT_SQL_CONDITIONS = some ("IF".data)
    ∧ some ("IF".data) ≠ some ("t".data) := by decide

/-- Claim C7 (amended): for a TABLE-category condition the extractor
returns the single token immediately after "CREATE TABLE" or "DROP TABLE",
up to the first whitespace or ';' — whatever that token is, not necessarily
the table name: on a "DROP TABLE <name>;" line it is the table name, but on
a "CREATE TABLE IF NOT EXISTS ..." line it is the keyword continuation
"IF". -/
theorem c7_amended (t rest rest2 : List Char) (ht : t ≠ [])
    (htok : ∀ c ∈ t, stopSemi c = false) :
    extract_function_name ("DROP TABLE ".data ++ (t ++ ';' :: rest))
        DEFAULT_SQL_CONDITIONS = some t
    ∧ extract_function_name ("CREATE TABLE IF NOT EXISTS ".data ++ rest2)
        DEFAULT_SQL_CONDITIONS = some ("IF".data) := by
  constructor
  · have hline1 : "DROP TABLE ".data ++ (t ++ ';' :: rest)
        = "DROP TABLE".data ++ ' ' :: (t ++ ';' :: rest) := by
      rw [show "DROP TABLE ".data = "DROP TABLE".data ++ [' '] from by decide]
      simp only [List.append_assoc, List.singleton_append]
    rw [hline1]
    have hup1 : upperL ("DROP TABLE".data) = "DROP TABLE".data := by decide
    have hciL : hasSub (upperL ("DROP TABLE".data))
        (upperL ("DROP TABLE".data ++ ' ' :: (t ++ ';' :: rest))) = true := by
      rw [hup1, upperL_append, hup1]
      exact hasSub_self_append _ _
    have hce : condExtract ("DROP TABLE".data ++ ' ' :: (t ++ ';' :: rest))
        ("DROP TABLE".data) = some t := by
      rw [condExtract_table (by decide) (by decide) (by decide)]
      exact searchTable_drop_line t rest ht htok
    exact extract_cons_found hciL hce
  · have hsearch2 : searchTable ("CREATE TABLE IF NOT EXISTS ".data ++ rest2)
        = some ("IF".data) := searchTable_create_exists_line rest2
    by_cases hd : hasSub (upperL ("DROP TABLE".data))
        (upperL ("CREATE TABLE IF NOT EXISTS ".data ++ rest2)) = true
    · have hce1 : condExtract ("CREATE TABLE IF NOT EXISTS ".data ++ rest2)
          ("DROP TABLE".data) = some ("IF".data) := by
        rw [condExtract_table (by decide) (by decide) (by decide)]
        exact hsearch2
      exact extract_cons_found hd hce1
    · rw [Bool.not_eq_true] at hd
      have hup2 : upperL ("CREATE TABLE IF NOT EXISTS".data)
          = "CREATE TABLE IF NOT EXISTS".data := by decide
      have hupL2 : upperL ("CREATE TABLE IF NOT EXISTS ".data ++ rest2)
          = "CREATE TABLE IF NOT EXISTS".data ++ ' ' :: upperL rest2 := by
        rw [upperL_append,
          show upperL ("CREATE TABLE IF NOT EXISTS ".data)
            = "CREATE TABLE IF NOT EXISTS".data ++ [' '] from by decide]
        simp only [List.append_assoc, List.singleton_append]
      have hci2 : hasSub (upperL ("CREATE TABLE IF NOT EXISTS".data))
          (upperL ("CREATE TABLE IF NOT EXISTS ".data ++ rest2)) = true := by
        rw [hup2, hupL2]
        exact hasSub_self_append _ _
      have hce2 : condExtract ("CREATE TABLE IF NOT EXISTS ".data ++ rest2)
          ("CREATE TABLE IF NOT EXISTS".data) = some ("IF".data) := by
        rw [condExtract_table (by decide) (by decide) (by decide)]
        exact hsearch2
      show extract_function_name ("CREATE TABLE IF NOT EXISTS ".data ++ rest2)
        ("DROP TABLE".data :: "CREATE TABLE IF NOT EXISTS".data
          :: ["create or replace TABLE".data, "CREATE OR REPLACE FUNCTION".data,
              "create or replace view".data, "CREATE OR REPLACE PROCEDURE".data])
        = some ("IF".data)
      rw [extract_cons_skip hd]
      exact extract_cons_found hci2 hce2

/-- Witness for C7 at t = "foo": "DROP TABLE foo;" extracts "foo", and the
IF NOT EXISTS line extracts "IF". -/
theorem c7_amended_witness :
    ("foo".data ≠ ([] : List Char))
    ∧ (∀ c ∈ "foo".data, stopSemi c = false)
    ∧ extract_function_name ("DROP TABLE ".data ++ ("foo".data ++ ';' :: "\n".data))
        DEFAULT_SQL_CONDITIONS = some ("foo".data)
    ∧ extract_function_name ("CREATE TABLE IF NOT EXISTS ".data ++ "t (x int);\n".data)
        DEFAULT_SQL_CONDITIONS = some ("IF".data) :=
  ⟨by decide, by decide,
   (c7_amended ("foo".data) ("\n".data) ("t (x int);\n".data) (by decide) (by decide)).1,
   (c7_amended ("foo".data) ("\n".data) ("t (x int);\n".data) (by decide) (by decide)).2⟩

end SqlDumpSplitter
